import Mathlib

/-!
# Verification of the expense-insight-tracker-pro core logic

Shallow embedding of the filtering, aggregation and budget logic of the
expense tracker.  Dates are modelled as millisecond timestamps (`Int`),
monetary amounts as rationals.  All definitions are translated from the
TypeScript source (`src/pages/Index.tsx`, `src/components/BudgetTracker.tsx`,
`src/components/ChartsSection.tsx`, `src/utils/expenseUtils.ts`,
`src/types/expense.ts`); date-fns helpers (`startOfDay`, `eachDayOfInterval`,
`startOfWeek`, `endOfWeek`, `startOfMonth`, `endOfMonth`) are embedded with
their documented semantics on civil (proleptic Gregorian) dates.
-/

namespace ExpenseTracker

/-- A point in time, as in a JS `Date`: milliseconds since the Unix epoch. -/
abbrev DateMs := Int

/-- Milliseconds in one civil day. -/
def msPerDay : Int := 86400000

/-- The civil day number (days since 1970-01-01) containing a timestamp. -/
def dayOf (d : DateMs) : Int := d / msPerDay

/-- date-fns `startOfDay`: midnight of the day containing `d`. -/
def startOfDay (d : DateMs) : DateMs := dayOf d * msPerDay

/-- date-fns `startOfWeek` (default `weekStartsOn = 0`, Sunday): midnight of
the Sunday on or before `d`.  Day 0 (1970-01-01) was a Thursday, so the day
of week of civil day `n` is `(n + 4) mod 7`. -/
def startOfWeek (d : DateMs) : DateMs :=
  (dayOf d - (dayOf d + 4) % 7) * msPerDay

/-- date-fns `endOfWeek`: last millisecond of the Saturday ending the week
containing `d`. -/
def endOfWeek (d : DateMs) : DateMs := startOfWeek d + 7 * msPerDay - 1

/-- Civil-from-days conversion (proleptic Gregorian), returning
`(year, month, day)` for a day number counted from 1970-01-01. -/
def civilFromDays (z : Int) : Int × Int × Int :=
  let z' := z + 719468
  let era := z' / 146097
  let doe := z' - era * 146097
  let yoe := (doe - doe / 1460 + doe / 36524 - doe / 146096) / 365
  let y := yoe + era * 400
  let doy := doe - (365 * yoe + yoe / 4 - yoe / 100)
  let mp := (5 * doy + 2) / 153
  let d := doy - (153 * mp + 2) / 5 + 1
  let m := mp + (if mp < 10 then 3 else -9)
  (if m ≤ 2 then y + 1 else y, m, d)

/-- Days-from-civil conversion (proleptic Gregorian). -/
def daysFromCivil (y m d : Int) : Int :=
  let y' := if m ≤ 2 then y - 1 else y
  let era := y' / 400
  let yoe := y' - era * 400
  let mp := (m + 9) % 12
  let doy := (153 * mp + 2) / 5 + d - 1
  let doe := yoe * 365 + yoe / 4 - yoe / 100 + doy
  era * 146097 + doe - 719468

/-- date-fns `startOfMonth`: midnight of the first day of the month
containing `d`. -/
def startOfMonth (d : DateMs) : DateMs :=
  let c := civilFromDays (dayOf d)
  daysFromCivil c.1 c.2.1 1 * msPerDay

/-- date-fns `endOfMonth`: last millisecond of the month containing `d`
(i.e. one millisecond before midnight of the first day of the next month). -/
def endOfMonth (d : DateMs) : DateMs :=
  let c := civilFromDays (dayOf d)
  let next := if c.2.1 = 12 then (c.1 + 1, (1 : Int)) else (c.1, c.2.1 + 1)
  daysFromCivil next.1 next.2 1 * msPerDay - 1

/-- Transaction kind, `'income' | 'expense'` in `src/types/expense.ts`. -/
inductive TxKind where
  | income
  | expense
deriving DecidableEq, Repr

/-- A transaction (`Expense` interface in `src/types/expense.ts`). -/
structure Expense where
  id : String
  amount : ℚ
  categoryId : String
  description : String
  date : DateMs
  type : TxKind
  createdAt : DateMs
deriving DecidableEq, Repr

/-- A category (`Category` interface in `src/types/expense.ts`). -/
structure Category where
  id : String
  name : String
  color : String
  icon : String
deriving DecidableEq, Repr

/-- Budget period, `'weekly' | 'monthly'`. -/
inductive Period where
  | weekly
  | monthly
deriving DecidableEq, Repr

/-- A budget (`Budget` interface in `src/types/expense.ts`). -/
structure Budget where
  id : String
  categoryId : String
  amount : ℚ
  period : Period
  createdAt : DateMs
deriving DecidableEq, Repr

/-- Filter type restriction, `'all' | 'income' | 'expense'`. -/
inductive FilterType where
  | all
  | income
  | expense
deriving DecidableEq, Repr

/-- The kind of a transaction viewed as a filter type, for the comparison
`expense.type === filters.type` across the two string unions. -/
def kindToFT : TxKind → FilterType
  | .income => .income
  | .expense => .expense

/-- Filter specification (`FilterOptions` interface in
`src/types/expense.ts`): `minAmount` / `maxAmount` are optional
(`undefined` is `none`). -/
structure FilterOptions where
  startDate : DateMs
  endDate : DateMs
  categories : List String
  minAmount : Option ℚ
  maxAmount : Option ℚ
  type : FilterType
deriving DecidableEq, Repr

/-- JS truthiness of a `number | undefined` value as used in
`!filters.minAmount` / `!filters.maxAmount` in `Index.tsx`: `undefined`
and `0` are falsy (NaN is not modelled). -/
def truthyOpt (o : Option ℚ) : Bool :=
  match o with
  | none => false
  | some x => x ≠ 0

/-- The per-transaction filter predicate of `filteredExpenses` in
`src/pages/Index.tsx` lines 73–82. -/
def matchesFilter (f : FilterOptions) (e : Expense) : Bool :=
  let dateInRange := decide (f.startDate ≤ e.date) && decide (e.date ≤ f.endDate)
  let categoryMatch := f.categories.length == 0 || f.categories.contains e.categoryId
  let amountMatch :=
    (!truthyOpt f.minAmount || decide (f.minAmount.getD 0 ≤ e.amount)) &&
    (!truthyOpt f.maxAmount || decide (e.amount ≤ f.maxAmount.getD 0))
  let typeMatch := f.type == .all || kindToFT e.type == f.type
  dateInRange && categoryMatch && amountMatch && typeMatch

/-- The `filteredExpenses` computation in `src/pages/Index.tsx`:
`expenses.filter (...)`. -/
def filterExpenses (expenses : List Expense) (f : FilterOptions) : List Expense :=
  expenses.filter (matchesFilter f)

/-- The `reduce((sum, expense) => sum + expense.amount, 0)` summation used
throughout the source. -/
def sumAmounts (l : List Expense) : ℚ :=
  l.foldl (fun s x => s + x.amount) 0

/-- The window condition of `getSpentAmount` in
`src/components/BudgetTracker.tsx` lines 46–67: expense-kind, the budget's
category, and date within the week (weekly) or month (monthly) containing
`now`. -/
def inBudgetWindow (budget : Budget) (now : DateMs) (x : Expense) : Bool :=
  let startDate := match budget.period with
    | .weekly => startOfWeek now
    | .monthly => startOfMonth now
  let endDate := match budget.period with
    | .weekly => endOfWeek now
    | .monthly => endOfMonth now
  x.type == .expense && x.categoryId == budget.categoryId &&
    decide (startDate ≤ x.date) && decide (x.date ≤ endDate)

/-- The `getSpentAmount` function in `src/components/BudgetTracker.tsx`: sum of the
amounts of the transactions of `expenses` matching the budget window. -/
def getSpentAmount (expenses : List Expense) (budget : Budget) (now : DateMs) : ℚ :=
  sumAmounts (expenses.filter (inBudgetWindow budget now))

/-- Budget status classification values. -/
inductive BStatus where
  | exceeded
  | warning
  | moderate
  | good
deriving DecidableEq, Repr

/-- The `getBudgetStatus` function in `src/components/BudgetTracker.tsx` lines 69–76:
classify `spent / budget.amount * 100` against the 100 / 80 / 50 thresholds,
returning the status together with its color class. -/
def getBudgetStatus (budget : Budget) (spent : ℚ) : BStatus × String :=
  let percentage := spent / budget.amount * 100
  if percentage ≥ 100 then (.exceeded, "bg-red-500")
  else if percentage ≥ 80 then (.warning, "bg-orange-500")
  else if percentage ≥ 50 then (.moderate, "bg-yellow-500")
  else (.good, "bg-green-500")

/-- The value `remaining = budget.amount - spent` (`BudgetTracker.tsx` line 206),
reported uncapped. -/
def budgetRemaining (budget : Budget) (spent : ℚ) : ℚ :=
  budget.amount - spent

/-- The value `percentage = Math.min((spent / budget.amount) * 100, 100)`
(`BudgetTracker.tsx` line 207), the displayed progress. -/
def budgetPercentDisplayed (budget : Budget) (spent : ℚ) : ℚ :=
  min (spent / budget.amount * 100) 100

/-- date-fns `eachDayOfInterval`: the midnights of the days from the day of
`s` while they do not exceed `e` (empty when the interval is reversed; the
library throws there, which no caller reaches under the spec's
`start ≤ end` precondition). -/
def eachDayOfInterval (s e : DateMs) : List DateMs :=
  if dayOf s ≤ dayOf e then
    (List.range ((dayOf e - dayOf s).toNat + 1)).map (fun i : ℕ => (dayOf s + (i : Int)) * msPerDay)
  else []

/-- One point of the daily series of `getDailyData` in
`src/components/ChartsSection.tsx` lines 69–89.  The source labels the point
with `format(day, 'MMM dd')`; the model carries the day's midnight
timestamp, from which that label is formatted. -/
structure DayPoint where
  date : DateMs
  expenses : ℚ
  income : ℚ
  net : ℚ
deriving DecidableEq, Repr

/-- The `getDailyData` function in `src/components/ChartsSection.tsx`: one point per day
of the range, with the day's summed expense amount, summed income amount and
net. -/
def getDailyData (expenses : List Expense) (s e : DateMs) : List DayPoint :=
  (eachDayOfInterval s e).map (fun day =>
    let dayExpenses := expenses.filter (fun x => startOfDay x.date == startOfDay day)
    let expenseAmount := sumAmounts (dayExpenses.filter (fun x => x.type == .expense))
    let incomeAmount := sumAmounts (dayExpenses.filter (fun x => x.type == .income))
    { date := day
      expenses := expenseAmount
      income := incomeAmount
      net := incomeAmount - expenseAmount })

/-- One point of the cumulative series of `getCumulativeData` in
`src/components/ChartsSection.tsx` lines 94–108. -/
structure CumPoint where
  date : DateMs
  cumulativeIncome : ℚ
  cumulativeExpenses : ℚ
  balance : ℚ
deriving DecidableEq, Repr

/-- The running-accumulator loop of `getCumulativeData`, carrying the two
independent accumulators `cumulativeIncome` and `cumulativeExpenses`. -/
def cumGo (ci ce : ℚ) : List DayPoint → List CumPoint
  | [] => []
  | d :: rest =>
    let ci' := ci + d.income
    let ce' := ce + d.expenses
    { date := d.date
      cumulativeIncome := ci'
      cumulativeExpenses := ce'
      balance := ci' - ce' } :: cumGo ci' ce' rest

/-- The `getCumulativeData` function in `src/components/ChartsSection.tsx`: prefix sums
of income and expenses over the daily series, both accumulators starting at
`0`. -/
def getCumulativeData (daily : List DayPoint) : List CumPoint :=
  cumGo 0 0 daily

/-- One entry of the result of `calculateCategoryTotals` in
`src/utils/expenseUtils.ts`. -/
structure CatTotal where
  category : Category
  total : ℚ
  count : ℕ
deriving DecidableEq, Repr

/-- The per-category transaction predicate of `calculateCategoryTotals`:
`expense.categoryId === category.id && (type ? expense.type === type : true)`. -/
def catTypePred (c : Category) (type : Option TxKind) (x : Expense) : Bool :=
  x.categoryId == c.id && (match type with | some t => x.type == t | none => true)

/-- The `calculateCategoryTotals` function in `src/utils/expenseUtils.ts` lines 57–69:
for each category the total and count of its transactions (optionally
restricted to one kind), keeping only entries with positive total. -/
def calculateCategoryTotals (expenses : List Expense) (categories : List Category)
    (type : Option TxKind) : List CatTotal :=
  (categories.map (fun c =>
    let categoryExpenses := expenses.filter (catTypePred c type)
    { category := c
      total := sumAmounts categoryExpenses
      count := categoryExpenses.length })).filter (fun item => item.total > 0)

/-- The sum of the amounts of all expense-kind transactions of a list. -/
def allExpenseKindSum (expenses : List Expense) : ℚ :=
  sumAmounts (expenses.filter (fun x => x.type == .expense))

/-- The sum of the totals of a `calculateCategoryTotals` result. -/
def totalsSum (items : List CatTotal) : ℚ :=
  (items.map CatTotal.total).sum

/-- Budget form state in `BudgetTracker.tsx` (`formData`): the raw category
id, the amount field (`none` for an empty input, otherwise the parsed
number) and the period. -/
structure BudgetForm where
  categoryId : String
  amount : Option ℚ
  period : Period
deriving DecidableEq, Repr

/-- Outcome of the budget form submission (which toast is raised). -/
inductive SubmitResult where
  | missingFields
  | nonPositive
  | duplicate
  | updated
  | added
deriving DecidableEq, Repr

/-- The `handleSubmit` handler in `src/components/BudgetTracker.tsx` lines 78–145, as a
pure function from the current budgets, the editing target, the form state,
the fresh id and the clock to the new budgets plus the outcome: reject when
a required field is missing or the amount is not positive; when editing, map
over the budgets replacing the matching id (no duplicate check); when
creating, reject if a budget with the same category and period exists,
otherwise append the new budget. -/
def handleSubmitBudget (budgets : List Budget) (editing : Option Budget)
    (form : BudgetForm) (newId : String) (now : DateMs) :
    List Budget × SubmitResult :=
  if form.categoryId = "" ∨ form.amount = none then
    (budgets, .missingFields)
  else
    let amount := form.amount.getD 0
    if amount ≤ 0 then (budgets, .nonPositive)
    else
      match editing with
      | some eb =>
        (budgets.map (fun b =>
          if b.id = eb.id then
            { b with categoryId := form.categoryId, amount := amount, period := form.period }
          else b), .updated)
      | none =>
        if budgets.any (fun b => b.categoryId == form.categoryId && b.period == form.period) then
          (budgets, .duplicate)
        else
          (budgets ++ [{ id := newId
                         categoryId := form.categoryId
                         amount := amount
                         period := form.period
                         createdAt := now }], .added)

/-- The form payload of a transaction add/edit
(`Omit<Expense, 'id' | 'createdAt'>` in the source). -/
structure ExpenseData where
  amount : ℚ
  categoryId : String
  description : String
  date : DateMs
  type : TxKind
deriving DecidableEq, Repr

/-- The `handleAddExpense` handler in `src/pages/Index.tsx` lines 95–101: prepend a new
transaction whose id is the millisecond clock rendered as a string
(`Date.now().toString()`) and whose `createdAt` is the clock. -/
def handleAddExpense (expenses : List Expense) (d : ExpenseData) (now : DateMs) :
    List Expense :=
  { id := toString now
    amount := d.amount
    categoryId := d.categoryId
    description := d.description
    date := d.date
    type := d.type
    createdAt := now } :: expenses

/-- The `handleEditExpense` handler in `src/pages/Index.tsx` lines 109–120: map over the
transactions, spreading the form data over the one whose id matches (the
spread replaces `amount`, `categoryId`, `description`, `date` and `type`;
`id` and `createdAt` are not in the payload and stay). -/
def handleEditExpense (expenses : List Expense) (id : String) (d : ExpenseData) :
    List Expense :=
  expenses.map (fun e =>
    if e.id = id then
      { e with amount := d.amount
               categoryId := d.categoryId
               description := d.description
               date := d.date
               type := d.type }
    else e)

/-- The `handleDeleteExpense` handler in `src/pages/Index.tsx` lines 122–129: keep the
transactions whose id differs from the given id. -/
def handleDeleteExpense (expenses : List Expense) (id : String) : List Expense :=
  expenses.filter (fun e => e.id != id)

/-! ## Spec-side predicates -/

/-- The filter-retention condition exactly as the specification words it:
date in `[startDate, endDate]` inclusive; category set empty or containing
the transaction's category id; minimum bound unset or `amount ≥` it;
maximum bound unset or `amount ≤` it; type restriction `all` or equal to
the transaction's kind. -/
def specRetains (f : FilterOptions) (e : Expense) : Prop :=
  (f.startDate ≤ e.date ∧ e.date ≤ f.endDate) ∧
  (f.categories = [] ∨ e.categoryId ∈ f.categories) ∧
  (∀ m ∈ f.minAmount, m ≤ e.amount) ∧
  (∀ m ∈ f.maxAmount, e.amount ≤ m) ∧
  (f.type = .all ∨ kindToFT e.type = f.type)

/-- The filter-retention condition amended for the source's JS truthiness
test on the bounds: a bound equal to `0` is falsy and therefore imposes no
restriction, exactly like an unset bound. -/
def amendedRetains (f : FilterOptions) (e : Expense) : Prop :=
  (f.startDate ≤ e.date ∧ e.date ≤ f.endDate) ∧
  (f.categories = [] ∨ e.categoryId ∈ f.categories) ∧
  (∀ m ∈ f.minAmount, m = 0 ∨ m ≤ e.amount) ∧
  (∀ m ∈ f.maxAmount, m = 0 ∨ e.amount ≤ m) ∧
  (f.type = .all ∨ kindToFT e.type = f.type)

/-- Variant of `matchesFilter` with the category clause replaced by "match all": the
same specification with no category restriction. -/
def matchesFilterAllCats (f : FilterOptions) (e : Expense) : Bool :=
  let dateInRange := decide (f.startDate ≤ e.date) && decide (e.date ≤ f.endDate)
  let amountMatch :=
    (!truthyOpt f.minAmount || decide (f.minAmount.getD 0 ≤ e.amount)) &&
    (!truthyOpt f.maxAmount || decide (e.amount ≤ f.maxAmount.getD 0))
  let typeMatch := f.type == .all || kindToFT e.type == f.type
  dateInRange && true && amountMatch && typeMatch

/-- The filter run with the category restriction treated as match-all. -/
def filterExpensesAllCats (expenses : List Expense) (f : FilterOptions) : List Expense :=
  expenses.filter (matchesFilterAllCats f)

/-! ## Concrete sample values used by witnesses and counterexamples -/

/-- A sample expense transaction of amount `5` dated at the epoch. -/
def txA : Expense :=
  { id := "e1", amount := 5, categoryId := "c1", description := "lunch"
    date := 0, type := .expense, createdAt := 0 }

/-- A filter whose maximum bound is set to `0`, everything else passing. -/
def fMaxZero : FilterOptions :=
  { startDate := -10, endDate := 10, categories := []
    minAmount := none, maxAmount := some 0, type := .all }

/-! ## Helper lemmas -/

/-- The boolean filter predicate of the source agrees with the amended
retention condition (bounds of `0` are no-ops, by JS falsiness). -/
theorem matchesFilter_iff_amendedRetains (f : FilterOptions) (e : Expense) :
    matchesFilter f e = true ↔ amendedRetains f e := by
  unfold matchesFilter amendedRetains truthyOpt
  cases f.minAmount <;> cases f.maxAmount <;>
    · simp only [Bool.and_eq_true, Bool.or_eq_true, decide_eq_true_eq, beq_iff_eq,
        List.length_eq_zero, List.elem_iff, Option.getD_some, Option.getD_none,
        Option.mem_def, Option.some.injEq, Bool.not_eq_true', decide_eq_false_iff_not,
        not_not, forall_eq, forall_eq', Bool.not_true, Bool.not_false, Bool.false_eq_true,
        Bool.true_eq_false, false_or, true_or, or_false, or_true,
        Option.not_mem_none, forall_const]
      constructor <;> intro h <;> tauto

/-! ## C1: the filter retention condition -/

/-- C1, counterexample: the claim's retention condition is violated by the
code.  With a maximum amount bound set to `0`, the filter of `Index.tsx`
retains a transaction of amount `5` (because `!filters.maxAmount` is truthy
for the falsy bound `0`, skipping the bound check), while the claim demands
`amount ≤ maxAmount`, i.e. exclusion. -/
theorem filter_claim_false_at_zero_max_bound :
    txA ∈ filterExpenses [txA] fMaxZero ∧ ¬ specRetains fMaxZero txA := by
  constructor
  · simp [filterExpenses, matchesFilter, txA, fMaxZero, truthyOpt]
  · intro h
    have hmax := h.2.2.2.1 0 rfl
    norm_num [txA] at hmax

/-- C1, amended: the filter retains a transaction iff its date lies within
`[startDate, endDate]`, the category set is empty or contains its category
id, the minimum bound is unset *or zero* or `amount ≥` it, the maximum
bound is unset *or zero* or `amount ≤` it, and the type restriction is
`all` or equals its kind (a bound of `0` is falsy in JS and therefore acts
as unset). -/
theorem filterExpenses_retains_iff (es : List Expense) (f : FilterOptions) (e : Expense) :
    e ∈ filterExpenses es f ↔ e ∈ es ∧ amendedRetains f e := by
  unfold filterExpenses
  rw [List.mem_filter, matchesFilter_iff_amendedRetains]

/-! ## C4: an empty category set is match-all -/

/-- C4: for a specification with an empty category set, the filter result
coincides with the result of the same specification with the category
restriction treated as match-all. -/
theorem filter_empty_categories_is_match_all (es : List Expense) (f : FilterOptions)
    (h : f.categories = []) :
    filterExpenses es f = filterExpensesAllCats es f := by
  unfold filterExpenses filterExpensesAllCats
  apply List.filter_congr
  intro e _
  unfold matchesFilter matchesFilterAllCats
  rw [h]
  simp

/-- C4, witness: the match-all equivalence at a concrete transaction list
and a concrete empty-category-set filter. -/
theorem filter_empty_categories_is_match_all_witness :
    filterExpenses [txA] fMaxZero = filterExpensesAllCats [txA] fMaxZero :=
  filter_empty_categories_is_match_all [txA] fMaxZero rfl

/-! ## C9: editing a transaction is frame-preserving -/

/-- C9: editing by id preserves the collection's length; a transaction
whose id differs from the edited id is unchanged, and the transaction at a
position whose id matches keeps its `id` and `createdAt` while taking the
payload's `amount`, `categoryId`, `description`, `date` and `type`. -/
theorem handleEditExpense_frame (es : List Expense) (id : String) (d : ExpenseData) :
    (handleEditExpense es id d).length = es.length ∧
    ∀ i : ℕ, ∀ e : Expense, es[i]? = some e →
      (e.id ≠ id → (handleEditExpense es id d)[i]? = some e) ∧
      (e.id = id → ∃ e', (handleEditExpense es id d)[i]? = some e' ∧
        e'.id = e.id ∧ e'.createdAt = e.createdAt ∧ e'.amount = d.amount ∧
        e'.categoryId = d.categoryId ∧ e'.description = d.description ∧
        e'.date = d.date ∧ e'.type = d.type) := by
  constructor
  · simp [handleEditExpense]
  · intro i e hie
    have hmap : (handleEditExpense es id d)[i]? =
        (es[i]?).map (fun e =>
          if e.id = id then
            { e with amount := d.amount, categoryId := d.categoryId,
                     description := d.description, date := d.date, type := d.type }
          else e) := by
      simp [handleEditExpense]
    rw [hie] at hmap
    constructor
    · intro hne
      rw [hmap]
      simp only [Option.map_some']
      simp [if_neg hne]
    · intro heq
      refine ⟨_, by rw [hmap]; simp only [Option.map_some']; rw [if_pos heq],
        ?_, ?_, ?_, ?_, ?_, ?_, ?_⟩ <;> rfl

/-- C9, witness: the frame property applied at a concrete two-element list,
with the matching position edited and the other untouched. -/
theorem handleEditExpense_frame_witness :
    ([txA][0]? = some txA) ∧
    (txA.id = "e1" → ∃ e', (handleEditExpense [txA] "e1"
        { amount := 7, categoryId := "c2", description := "x", date := 3, type := .income })[0]? = some e' ∧
      e'.id = txA.id ∧ e'.createdAt = txA.createdAt ∧ e'.amount = 7 ∧
      e'.categoryId = "c2" ∧ e'.description = "x" ∧ e'.date = 3 ∧ e'.type = .income) :=
  ⟨by decide,
   ((handleEditExpense_frame [txA] "e1"
      { amount := 7, categoryId := "c2", description := "x", date := 3, type := .income }).2
      0 txA (by decide)).2⟩

/-! ## C10: deleting a transaction by id -/

/-- Payload of the first of two transactions created in one millisecond. -/
def dataX : ExpenseData :=
  { amount := 5, categoryId := "c1", description := "first", date := 0, type := .expense }

/-- Payload of the second of two transactions created in one millisecond. -/
def dataY : ExpenseData :=
  { amount := 9, categoryId := "c2", description := "second", date := 0, type := .income }

/-- C10: deleting by id removes every transaction carrying that id and
keeps all others unchanged in their original relative order (the result is
a sublist of the input whose members are exactly those with a different
id); and since new ids are the millisecond clock, two transactions added
at the same clock value share an id and one delete with that id removes
both. -/
theorem handleDeleteExpense_spec (es : List Expense) (id : String) :
    (handleDeleteExpense es id).Sublist es ∧
    (∀ e : Expense, e ∈ handleDeleteExpense es id ↔ e ∈ es ∧ e.id ≠ id) ∧
    handleDeleteExpense (handleAddExpense (handleAddExpense [] dataX 1000) dataY 1000)
      (toString (1000 : DateMs)) = [] := by
  refine ⟨List.filter_sublist es, ?_, by decide⟩
  intro e
  simp [handleDeleteExpense, List.mem_filter, bne_iff_ne]

/-! ## C3: budget status classification and display values -/

/-- C3: for a positive budget amount and non-negative spend, the status is
`exceeded` iff `spent ≥ amount` (100 %), `warning` iff `80 % ≤ spent <
100 %`, `moderate` iff `50 % ≤ spent < 80 %`, `good` iff `spent < 50 %`;
in particular exactly 80 % yields `warning` and exactly 100 % yields
`exceeded`; the displayed progress is capped at 100 (and is exactly 100
whenever the budget is exceeded) while the reported remaining is the
uncapped `amount - spent`, negative whenever spend exceeds the budget. -/
theorem getBudgetStatus_spec (b : Budget) (spent : ℚ)
    (h1 : 0 < b.amount) (h2 : 0 ≤ spent) :
    ((getBudgetStatus b spent).1 = .exceeded ↔ b.amount ≤ spent) ∧
    ((getBudgetStatus b spent).1 = .warning ↔
      80 / 100 * b.amount ≤ spent ∧ spent < b.amount) ∧
    ((getBudgetStatus b spent).1 = .moderate ↔
      50 / 100 * b.amount ≤ spent ∧ spent < 80 / 100 * b.amount) ∧
    ((getBudgetStatus b spent).1 = .good ↔ spent < 50 / 100 * b.amount) ∧
    (getBudgetStatus b (80 / 100 * b.amount)).1 = .warning ∧
    (getBudgetStatus b b.amount).1 = .exceeded ∧
    budgetPercentDisplayed b spent ≤ 100 ∧
    (b.amount ≤ spent → budgetPercentDisplayed b spent = 100) ∧
    budgetRemaining b spent = b.amount - spent ∧
    (b.amount < spent → budgetRemaining b spent < 0) := by
  have hne : b.amount ≠ 0 := ne_of_gt h1
  have key : ∀ t : ℚ, t ≤ spent / b.amount * 100 ↔ t / 100 * b.amount ≤ spent := by
    intro t
    rw [div_mul_eq_mul_div, le_div_iff₀ h1]
    constructor <;> intro h <;> nlinarith
  have k100 : (100 : ℚ) ≤ spent / b.amount * 100 ↔ b.amount ≤ spent := by
    rw [key]
    constructor <;> intro h <;> nlinarith
  have k80 : (80 : ℚ) ≤ spent / b.amount * 100 ↔ 80 / 100 * b.amount ≤ spent := key 80
  have k50 : (50 : ℚ) ≤ spent / b.amount * 100 ↔ 50 / 100 * b.amount ≤ spent := key 50
  have hb80 : (getBudgetStatus b (80 / 100 * b.amount)).1 = .warning := by
    have hpct : 80 / 100 * b.amount / b.amount * 100 = (80 : ℚ) := by
      field_simp
      ring
    simp only [getBudgetStatus, hpct]
    norm_num
  have hb100 : (getBudgetStatus b b.amount).1 = .exceeded := by
    have hpct : b.amount / b.amount * 100 = (100 : ℚ) := by
      field_simp
    simp only [getBudgetStatus, hpct]
    norm_num
  have hcap : budgetPercentDisplayed b spent ≤ 100 := min_le_right _ _
  have hcap100 : b.amount ≤ spent → budgetPercentDisplayed b spent = 100 := by
    intro h
    unfold budgetPercentDisplayed
    rw [min_eq_right]
    exact k100.mpr h
  have hrem : budgetRemaining b spent = b.amount - spent := rfl
  have hremneg : b.amount < spent → budgetRemaining b spent < 0 := by
    intro h
    unfold budgetRemaining
    linarith
  have h5080 : 50 / 100 * b.amount < 80 / 100 * b.amount := by nlinarith
  have h80100 : 80 / 100 * b.amount < b.amount := by nlinarith
  have hiff : ((getBudgetStatus b spent).1 = .exceeded ↔ b.amount ≤ spent) ∧
      ((getBudgetStatus b spent).1 = .warning ↔
        80 / 100 * b.amount ≤ spent ∧ spent < b.amount) ∧
      ((getBudgetStatus b spent).1 = .moderate ↔
        50 / 100 * b.amount ≤ spent ∧ spent < 80 / 100 * b.amount) ∧
      ((getBudgetStatus b spent).1 = .good ↔ spent < 50 / 100 * b.amount) := by
    simp only [getBudgetStatus]
    split_ifs with hA hB hC
    · have ha : b.amount ≤ spent := k100.mp hA
      refine ⟨?_, ?_, ?_, ?_⟩ <;> constructor <;> intro hx
      · exact ha
      · rfl
      · exact absurd hx (by simp)
      · exfalso
        linarith [hx.2]
      · exact absurd hx (by simp)
      · exfalso
        linarith [hx.2]
      · exact absurd hx (by simp)
      · exfalso
        linarith
    · have ha : spent < b.amount := lt_of_not_le (fun h => hA (k100.mpr h))
      have hb : 80 / 100 * b.amount ≤ spent := k80.mp hB
      refine ⟨?_, ?_, ?_, ?_⟩ <;> constructor <;> intro hx
      · exact absurd hx (by simp)
      · exfalso
        linarith
      · exact ⟨hb, ha⟩
      · rfl
      · exact absurd hx (by simp)
      · exfalso
        linarith [hx.2]
      · exact absurd hx (by simp)
      · exfalso
        linarith
    · have ha : spent < b.amount := lt_of_not_le (fun h => hA (k100.mpr h))
      have hb : spent < 80 / 100 * b.amount := lt_of_not_le (fun h => hB (k80.mpr h))
      have hc : 50 / 100 * b.amount ≤ spent := k50.mp hC
      refine ⟨?_, ?_, ?_, ?_⟩ <;> constructor <;> intro hx
      · exact absurd hx (by simp)
      · exfalso
        linarith
      · exact absurd hx (by simp)
      · exfalso
        linarith [hx.1]
      · exact ⟨hc, hb⟩
      · rfl
      · exact absurd hx (by simp)
      · exfalso
        linarith
    · have hc : spent < 50 / 100 * b.amount := lt_of_not_le (fun h => hC (k50.mpr h))
      refine ⟨?_, ?_, ?_, ?_⟩ <;> constructor <;> intro hx
      · exact absurd hx (by simp)
      · exfalso
        linarith
      · exact absurd hx (by simp)
      · exfalso
        linarith [hx.1]
      · exact absurd hx (by simp)
      · exfalso
        linarith [hx.1]
      · exact hc
      · rfl
  exact ⟨hiff.1, hiff.2.1, hiff.2.2.1, hiff.2.2.2, hb80, hb100, hcap, hcap100, hrem, hremneg⟩

/-- A sample monthly budget of amount `100` for category `c1`. -/
def budA : Budget :=
  { id := "b1", categoryId := "c1", amount := 100, period := .monthly, createdAt := 0 }

/-- C3, witness: the status classification applied to a budget of `100`
with a spend of `85` (the spec's own end-to-end scenario, yielding
`warning`). -/
theorem getBudgetStatus_spec_witness :
    0 < budA.amount ∧ 0 ≤ (85 : ℚ) ∧
    (((getBudgetStatus budA 85).1 = .exceeded ↔ budA.amount ≤ 85) ∧
     ((getBudgetStatus budA 85).1 = .warning ↔
       80 / 100 * budA.amount ≤ 85 ∧ (85 : ℚ) < budA.amount) ∧
     ((getBudgetStatus budA 85).1 = .moderate ↔
       50 / 100 * budA.amount ≤ 85 ∧ (85 : ℚ) < 80 / 100 * budA.amount) ∧
     ((getBudgetStatus budA 85).1 = .good ↔ (85 : ℚ) < 50 / 100 * budA.amount) ∧
     (getBudgetStatus budA (80 / 100 * budA.amount)).1 = .warning ∧
     (getBudgetStatus budA budA.amount).1 = .exceeded ∧
     budgetPercentDisplayed budA 85 ≤ 100 ∧
     (budA.amount ≤ 85 → budgetPercentDisplayed budA 85 = 100) ∧
     budgetRemaining budA 85 = budA.amount - 85 ∧
     (budA.amount < 85 → budgetRemaining budA 85 < 0)) :=
  ⟨by norm_num [budA], by norm_num,
   getBudgetStatus_spec budA 85 (by norm_num [budA]) (by norm_num)⟩

/-! ## C2: budget spend and the filtered transaction list -/

/-- A filter whose date range contains the epoch (and hence `txA`). -/
def fRangeIn : FilterOptions :=
  { startDate := 0, endDate := msPerDay, categories := []
    minAmount := none, maxAmount := none, type := .all }

/-- The same filter as `fRangeIn` except for the date range, which is moved
to days 40–41 (excluding `txA`; still inside no budget window for
`now = 0`? irrelevant — it merely excludes the transaction from the
filtered list). -/
def fRangeOut : FilterOptions :=
  { startDate := 40 * msPerDay, endDate := 41 * msPerDay, categories := []
    minAmount := none, maxAmount := none, type := .all }

/-- C2, counterexample: the budget spend does depend on the filter
specification's date range, because `Index.tsx` passes `filteredExpenses`
(not the full collection) to `BudgetTracker`.  With one epoch-dated expense
of amount `5` for the budget's category and `now = 0`, two filter
specifications differing only in their date range yield spends `5` and `0`,
and the excluding one disagrees with the claim's sum over the
within-window transactions. -/
theorem spent_depends_on_filter_range :
    (fRangeIn.categories = fRangeOut.categories ∧
     fRangeIn.minAmount = fRangeOut.minAmount ∧
     fRangeIn.maxAmount = fRangeOut.maxAmount ∧
     fRangeIn.type = fRangeOut.type) ∧
    getSpentAmount (filterExpenses [txA] fRangeIn) budA 0 ≠
      getSpentAmount (filterExpenses [txA] fRangeOut) budA 0 ∧
    getSpentAmount (filterExpenses [txA] fRangeOut) budA 0 ≠
      getSpentAmount [txA] budA 0 := by
  have h1 : filterExpenses [txA] fRangeIn = [txA] := by decide
  have h2 : filterExpenses [txA] fRangeOut = [] := by decide
  have h3 : [txA].filter (inBudgetWindow budA 0) = [txA] := by decide
  refine ⟨⟨rfl, rfl, rfl, rfl⟩, ?_, ?_⟩
  · rw [h1, h2]
    unfold getSpentAmount
    rw [h3]
    simp [sumAmounts, txA]
  · rw [h2]
    unfold getSpentAmount
    rw [h3]
    simp [sumAmounts, txA]

/-- C2, amended: the spend shown for a budget is `getSpentAmount` applied
to the *filtered* transaction list, i.e. the sum of the amounts of the
transactions that satisfy the active filter specification *and* are
expense-kind, reference the budget's category and are dated within the
week (weekly) or calendar month (monthly) containing the current
wall-clock date; the period window itself is anchored at `now`, not at the
filter's range, but the summed population is the filtered list. -/
theorem getSpentAmount_on_filtered (es : List Expense) (f : FilterOptions)
    (b : Budget) (now : DateMs) :
    getSpentAmount (filterExpenses es f) b now
      = sumAmounts (es.filter (fun x => matchesFilter f x && inBudgetWindow b now x)) := by
  unfold getSpentAmount filterExpenses
  rw [List.filter_filter]
  congr 1
  apply List.filter_congr
  intro x _
  exact Bool.and_comm _ _

/-! ## C5: the daily time series -/

/-- Day numbers are monotone in the timestamp. -/
theorem dayOf_mono {s e : Int} (h : s ≤ e) : dayOf s ≤ dayOf e := by
  unfold dayOf msPerDay
  omega

/-- The start of day of a midnight is that midnight itself. -/
theorem startOfDay_midnight (k : Int) : startOfDay (k * msPerDay) = k * msPerDay := by
  unfold startOfDay dayOf
  rw [Int.mul_ediv_cancel]
  unfold msPerDay
  norm_num

/-- C5: for `startDate ≤ endDate` the daily series has exactly
`(endDate - startDate in days) + 1` points; every point's net is its
income minus its expense; and a day none of whose transactions exists
still contributes a point, with income, expense and net all `0`. -/
theorem getDailyData_spec (es : List Expense) (s e : DateMs) (h : s ≤ e) :
    (getDailyData es s e).length = (dayOf e - dayOf s).toNat + 1 ∧
    (∀ p ∈ getDailyData es s e, p.net = p.income - p.expenses) ∧
    (∀ p ∈ getDailyData es s e,
      (∀ x ∈ es, startOfDay x.date ≠ p.date) →
        p.income = 0 ∧ p.expenses = 0 ∧ p.net = 0) := by
  have hd : dayOf s ≤ dayOf e := dayOf_mono h
  refine ⟨?_, ?_, ?_⟩
  · unfold getDailyData eachDayOfInterval
    rw [if_pos hd]
    simp only [List.length_map, List.length_range]
  · intro p hp
    unfold getDailyData at hp
    obtain ⟨day, -, rfl⟩ := List.mem_map.mp hp
    rfl
  · intro p hp hnone
    unfold getDailyData at hp
    obtain ⟨day, hday, rfl⟩ := List.mem_map.mp hp
    have hmid : ∃ k : Int, day = k * msPerDay := by
      unfold eachDayOfInterval at hday
      rw [if_pos hd] at hday
      obtain ⟨i, -, rfl⟩ := List.mem_map.mp hday
      exact ⟨dayOf s + i, rfl⟩
    obtain ⟨k, rfl⟩ := hmid
    have hfil : es.filter (fun x => startOfDay x.date == startOfDay (k * msPerDay)) = [] := by
      apply List.filter_eq_nil_iff.mpr
      intro x hx
      simp only [beq_iff_eq]
      intro hc
      exact hnone x hx (by rwa [startOfDay_midnight] at hc)
    simp only [hfil]
    refine ⟨?_, ?_, ?_⟩ <;> simp [sumAmounts]

/-- C5, witness: over the five days 0–4 and an empty transaction list, the
series has exactly five points, each with zero income, expense and net. -/
theorem getDailyData_spec_witness :
    (0 : DateMs) ≤ 4 * msPerDay ∧
    ((getDailyData [] 0 (4 * msPerDay)).length = (dayOf (4 * msPerDay) - dayOf 0).toNat + 1 ∧
     (∀ p ∈ getDailyData [] 0 (4 * msPerDay), p.net = p.income - p.expenses) ∧
     (∀ p ∈ getDailyData [] 0 (4 * msPerDay),
       (∀ x ∈ ([] : List Expense), startOfDay x.date ≠ p.date) →
         p.income = 0 ∧ p.expenses = 0 ∧ p.net = 0)) :=
  ⟨by norm_num [msPerDay], getDailyData_spec [] 0 (4 * msPerDay) (by norm_num [msPerDay])⟩

/-! ## C7: the cumulative series is a pair of prefix sums -/

/-- The accumulator loop preserves the length of the series. -/
theorem cumGo_length (ci ce : ℚ) (l : List DayPoint) :
    (cumGo ci ce l).length = l.length := by
  induction l generalizing ci ce with
  | nil => rfl
  | cons d rest ih => simp [cumGo, ih]

/-- Characterization of the accumulator loop: the `k`-th output point adds
the prefix sums of the first `k + 1` incomes and expenses to the incoming
accumulators, and its balance is their difference. -/
theorem cumGo_get (l : List DayPoint) (ci ce : ℚ) (k : ℕ)
    (h : k < (cumGo ci ce l).length) :
    ((cumGo ci ce l).get ⟨k, h⟩).cumulativeIncome
        = ci + ((l.take (k + 1)).map DayPoint.income).sum ∧
    ((cumGo ci ce l).get ⟨k, h⟩).cumulativeExpenses
        = ce + ((l.take (k + 1)).map DayPoint.expenses).sum ∧
    ((cumGo ci ce l).get ⟨k, h⟩).balance
        = ((cumGo ci ce l).get ⟨k, h⟩).cumulativeIncome
          - ((cumGo ci ce l).get ⟨k, h⟩).cumulativeExpenses := by
  induction l generalizing ci ce k with
  | nil => simp [cumGo] at h
  | cons d rest ih =>
    cases k with
    | zero => simp [cumGo]
    | succ k =>
      have h' : k < (cumGo (ci + d.income) (ce + d.expenses) rest).length := by
        have := h
        simp only [cumGo, List.length_cons] at this
        omega
      have hrec := ih (ci + d.income) (ce + d.expenses) k h'
      refine ⟨?_, ?_, ?_⟩
      · show ((cumGo (ci + d.income) (ce + d.expenses) rest).get ⟨k, h'⟩).cumulativeIncome = _
        rw [hrec.1]
        simp [add_assoc]
      · show ((cumGo (ci + d.income) (ce + d.expenses) rest).get ⟨k, h'⟩).cumulativeExpenses = _
        rw [hrec.2.1]
        simp [add_assoc]
      · exact hrec.2.2

/-- C7: the `k`-th point (0-based) of the cumulative series carries the
prefix sum of the first `k + 1` daily incomes as `cumulativeIncome`, the
prefix sum of the first `k + 1` daily expenses as `cumulativeExpenses`
(the two computed independently), and their difference as `balance`. -/
theorem getCumulativeData_spec (daily : List DayPoint) (k : ℕ)
    (h : k < (getCumulativeData daily).length) :
    ((getCumulativeData daily).get ⟨k, h⟩).cumulativeIncome
        = ((daily.take (k + 1)).map DayPoint.income).sum ∧
    ((getCumulativeData daily).get ⟨k, h⟩).cumulativeExpenses
        = ((daily.take (k + 1)).map DayPoint.expenses).sum ∧
    ((getCumulativeData daily).get ⟨k, h⟩).balance
        = ((getCumulativeData daily).get ⟨k, h⟩).cumulativeIncome
          - ((getCumulativeData daily).get ⟨k, h⟩).cumulativeExpenses := by
  have := cumGo_get daily 0 0 k h
  simpa using this

/-- A two-point daily series used to witness the cumulative invariant. -/
def dailyW : List DayPoint :=
  [{ date := 0, expenses := 3, income := 10, net := 7 },
   { date := msPerDay, expenses := 4, income := 1, net := -3 }]

/-- C7, witness: the prefix-sum property at the second point of a concrete
two-day series. -/
theorem getCumulativeData_spec_witness :
    1 < (getCumulativeData dailyW).length ∧
    (((getCumulativeData dailyW).get ⟨1, by simp [getCumulativeData, cumGo, dailyW]⟩).cumulativeIncome
        = ((dailyW.take 2).map DayPoint.income).sum ∧
     ((getCumulativeData dailyW).get ⟨1, by simp [getCumulativeData, cumGo, dailyW]⟩).cumulativeExpenses
        = ((dailyW.take 2).map DayPoint.expenses).sum ∧
     ((getCumulativeData dailyW).get ⟨1, by simp [getCumulativeData, cumGo, dailyW]⟩).balance
        = ((getCumulativeData dailyW).get ⟨1, by simp [getCumulativeData, cumGo, dailyW]⟩).cumulativeIncome
          - ((getCumulativeData dailyW).get ⟨1, by simp [getCumulativeData, cumGo, dailyW]⟩).cumulativeExpenses) :=
  ⟨by simp [getCumulativeData, cumGo, dailyW],
   getCumulativeData_spec dailyW 1 (by simp [getCumulativeData, cumGo, dailyW])⟩

/-! ## C8: duplicate budgets are rejected at creation, not at edit -/

/-- An existing monthly budget for category `c1`. -/
def budE1 : Budget :=
  { id := "1", categoryId := "c1", amount := 50, period := .monthly, createdAt := 0 }

/-- An existing monthly budget for category `c2`. -/
def budE2 : Budget :=
  { id := "2", categoryId := "c2", amount := 60, period := .monthly, createdAt := 0 }

/-- C8: with valid form fields, creating a budget whose category and period
already occur in the collection yields the duplicate notice and leaves the
collection unchanged; and the edit branch runs no duplicate check, so
editing `budE2` onto `budE1`'s category produces a collection with two
monthly budgets for category `c1`. -/
theorem handleSubmitBudget_spec (budgets : List Budget) (form : BudgetForm)
    (newId : String) (now : DateMs) (a : ℚ)
    (hcat : form.categoryId ≠ "") (ha : form.amount = some a) (hpos : 0 < a)
    (hdup : ∃ b ∈ budgets, b.categoryId = form.categoryId ∧ b.period = form.period) :
    handleSubmitBudget budgets none form newId now = (budgets, .duplicate) ∧
    ((handleSubmitBudget [budE1, budE2] (some budE2)
        { categoryId := "c1", amount := some 70, period := .monthly } "9" 0).2
      = .updated ∧
     ((handleSubmitBudget [budE1, budE2] (some budE2)
        { categoryId := "c1", amount := some 70, period := .monthly } "9" 0).1.countP
        (fun b => b.categoryId == "c1" && b.period == Period.monthly)) = 2) := by
  constructor
  · unfold handleSubmitBudget
    rw [if_neg (by simp [hcat, ha])]
    have hany : budgets.any
        (fun b => b.categoryId == form.categoryId && b.period == form.period) = true := by
      rw [List.any_eq_true]
      obtain ⟨b, hb, h1, h2⟩ := hdup
      exact ⟨b, hb, by simp [h1, h2]⟩
    rw [ha]
    simp only [Option.getD_some]
    rw [if_neg (not_le.mpr hpos), if_pos hany]
  · constructor
    · unfold handleSubmitBudget
      decide
    · unfold handleSubmitBudget
      decide

/-- C8, witness: duplicate-rejection applied to a concrete one-budget
collection and a form naming the same category and period. -/
theorem handleSubmitBudget_spec_witness :
    ((({ categoryId := "c1", amount := some 20, period := .monthly } : BudgetForm).categoryId ≠ "") ∧
     ({ categoryId := "c1", amount := some 20, period := .monthly } : BudgetForm).amount = some 20 ∧
     (0 : ℚ) < 20 ∧
     (∃ b ∈ [budE1], b.categoryId = "c1" ∧ b.period = Period.monthly)) ∧
    handleSubmitBudget [budE1] none
      { categoryId := "c1", amount := some 20, period := .monthly } "9" 0
      = ([budE1], .duplicate) :=
  ⟨⟨by simp, rfl, by norm_num, ⟨budE1, by simp [budE1]⟩⟩,
   (handleSubmitBudget_spec [budE1]
      { categoryId := "c1", amount := some 20, period := .monthly } "9" 0 20
      (by simp) rfl (by norm_num) ⟨budE1, by simp [budE1]⟩).1⟩

/-! ## C6: category totals versus the total expense amount -/

/-- The fold of `sumAmounts` shifted by an arbitrary accumulator. -/
theorem foldl_add_amount (l : List Expense) (a : ℚ) :
    l.foldl (fun s x => s + x.amount) a = a + (l.map Expense.amount).sum := by
  induction l generalizing a with
  | nil => simp
  | cons x xs ih =>
    simp only [List.foldl_cons, List.map_cons, List.sum_cons]
    rw [ih]
    ring

/-- Evaluation of `sumAmounts` as the sum of the mapped amounts. -/
theorem sumAmounts_eq (l : List Expense) : sumAmounts l = (l.map Expense.amount).sum := by
  unfold sumAmounts
  rw [foldl_add_amount, zero_add]

/-- Evaluation of `sumAmounts` over a cons. -/
theorem sumAmounts_cons (x : Expense) (l : List Expense) :
    sumAmounts (x :: l) = x.amount + sumAmounts l := by
  rw [sumAmounts_eq, sumAmounts_eq, List.map_cons, List.sum_cons]

/-- A sum of amounts over any list of non-negative-amount transactions is
non-negative. -/
theorem sumAmounts_nonneg (l : List Expense) (h : ∀ x ∈ l, 0 ≤ x.amount) :
    0 ≤ sumAmounts l := by
  rw [sumAmounts_eq]
  apply List.sum_nonneg
  intro q hq
  obtain ⟨x, hx, rfl⟩ := List.mem_map.mp hq
  exact h x hx

/-- A sum of non-negative amounts vanishes exactly when every amount is
zero. -/
theorem sumAmounts_eq_zero_iff (l : List Expense) (h : ∀ x ∈ l, 0 ≤ x.amount) :
    sumAmounts l = 0 ↔ ∀ x ∈ l, x.amount = 0 := by
  induction l with
  | nil => simp [sumAmounts]
  | cons x xs ih =>
    rw [sumAmounts_cons]
    have hx : 0 ≤ x.amount := h x (by simp)
    have hxs : ∀ y ∈ xs, 0 ≤ y.amount := fun y hy => h y (List.mem_cons_of_mem x hy)
    have hs : 0 ≤ sumAmounts xs := sumAmounts_nonneg xs hxs
    constructor
    · intro h0
      have hxz : x.amount = 0 := by linarith
      have hsz : sumAmounts xs = 0 := by linarith
      intro y hy
      rcases List.mem_cons.mp hy with rfl | hy'
      · exact hxz
      · exact (ih hxs).mp hsz y hy'
    · intro hall
      rw [hall x (by simp), (ih hxs).mpr (fun y hy => hall y (List.mem_cons_of_mem x hy)), add_zero]

/-- The sum of the totals of a `CatTotal` list. -/
theorem totalsSum_cons (it : CatTotal) (l : List CatTotal) :
    totalsSum (it :: l) = it.total + totalsSum l := by
  simp [totalsSum]

/-- Dropping the non-positive entries does not change the sum of a list of
non-negative totals (only exact zeroes are dropped). -/
theorem totalsSum_filter_pos (l : List CatTotal) (h : ∀ it ∈ l, 0 ≤ it.total) :
    totalsSum (l.filter (fun it => it.total > 0)) = totalsSum l := by
  induction l with
  | nil => rfl
  | cons it rest ih =>
    have h0 : 0 ≤ it.total := h it (by simp)
    have hrest : ∀ j ∈ rest, 0 ≤ j.total := fun j hj => h j (List.mem_cons_of_mem it hj)
    rw [List.filter_cons, totalsSum_cons]
    by_cases hp : 0 < it.total
    · rw [if_pos (by simpa using hp), totalsSum_cons, ih hrest]
    · have hz : it.total = 0 := le_antisymm (not_lt.mp hp) h0
      rw [if_neg (by simpa using hp), ih hrest, hz, zero_add]

/-- A transaction whose category id occurs in none of the listed categories
contributes nothing to the per-category indicator sum. -/
theorem sum_indicator_not_mem (x : Expense) (t : TxKind) (cs : List Category)
    (hni : x.categoryId ∉ cs.map Category.id) :
    (cs.map (fun c => if catTypePred c (some t) x = true then x.amount else 0)).sum = 0 := by
  induction cs with
  | nil => simp
  | cons c cs ih =>
    simp only [List.map_cons, List.mem_cons] at hni ⊢
    push_neg at hni
    rw [List.sum_cons, if_neg, ih hni.2, add_zero]
    simp only [catTypePred, Bool.and_eq_true, beq_iff_eq]
    rintro ⟨hc, -⟩
    exact hni.1 hc

/-- With pairwise-distinct category ids, the indicator sum of one
transaction over all categories is its amount when it is of the requested
kind and references a listed category, and zero otherwise. -/
theorem sum_indicator (x : Expense) (t : TxKind) (cs : List Category)
    (hnd : (cs.map Category.id).Nodup) :
    (cs.map (fun c => if catTypePred c (some t) x = true then x.amount else 0)).sum
      = if (x.type == t && (cs.map Category.id).contains x.categoryId) = true
        then x.amount else 0 := by
  induction cs with
  | nil => simp
  | cons c cs ih =>
    have hnd' : c.id ∉ cs.map Category.id ∧ (cs.map Category.id).Nodup := by
      rw [List.map_cons, List.nodup_cons] at hnd
      exact hnd
    simp only [List.map_cons, List.sum_cons]
    by_cases hc : x.categoryId = c.id
    · by_cases ht : x.type = t
      · rw [if_pos (by simp [catTypePred, hc, ht]),
          sum_indicator_not_mem x t cs (by rw [hc]; exact hnd'.1),
          if_pos (by simp [ht, List.contains_cons, hc]), add_zero]
      · rw [if_neg (by simp [catTypePred, ht]),
          if_neg (by simp [ht]), zero_add,
          ih hnd'.2]
        rw [if_neg (by simp [ht])]
    · by_cases ht : x.type = t
      · rw [if_neg (by simp [catTypePred, hc]), zero_add, ih hnd'.2]
        by_cases hm : x.categoryId ∈ cs.map Category.id
        · rw [if_pos (by simp [ht, List.elem_iff, hm]),
            if_pos (by simp [ht, List.contains_cons, List.elem_iff, hm])]
        · rw [if_neg (by simp [ht, List.elem_iff, hm]),
            if_neg (by simp [ht, List.contains_cons, List.elem_iff, hm, hc])]
      · rw [if_neg (by simp [catTypePred, ht]), zero_add, ih hnd'.2,
          if_neg (by simp [ht]), if_neg (by simp [ht])]

/-- With pairwise-distinct category ids, summing the per-category totals
equals summing the amounts of the transactions of the requested kind whose
category id is listed. -/
theorem catSum_eq (es : List Expense) (cs : List Category) (t : TxKind)
    (hnd : (cs.map Category.id).Nodup) :
    (cs.map (fun c => sumAmounts (es.filter (catTypePred c (some t))))).sum
      = sumAmounts (es.filter
          (fun x => x.type == t && (cs.map Category.id).contains x.categoryId)) := by
  induction es with
  | nil =>
    simp only [List.filter_nil]
    have : ∀ c ∈ cs, sumAmounts ([] : List Expense) = 0 := by
      intro c _
      rfl
    rw [List.sum_eq_zero]
    · rfl
    · intro q hq
      obtain ⟨c, -, rfl⟩ := List.mem_map.mp hq
      rfl
  | cons x es ih =>
    have hL : (fun c => sumAmounts ((x :: es).filter (catTypePred c (some t))))
        = (fun c => (if catTypePred c (some t) x = true then x.amount else 0)
            + sumAmounts (es.filter (catTypePred c (some t)))) := by
      funext c
      rw [List.filter_cons]
      by_cases hp : catTypePred c (some t) x = true
      · rw [if_pos hp, if_pos hp, sumAmounts_cons]
      · rw [if_neg hp, if_neg hp, zero_add]
    rw [hL, List.sum_map_add, sum_indicator x t cs hnd, ih, List.filter_cons]
    by_cases hq : (x.type == t && (cs.map Category.id).contains x.categoryId) = true
    · rw [if_pos hq, if_pos hq, sumAmounts_cons]
    · rw [if_neg hq, if_neg hq, zero_add]

/-- Splitting a filtered sum along a second boolean predicate. -/
theorem sumAmounts_filter_split (es : List Expense) (p q : Expense → Bool) :
    sumAmounts (es.filter p)
      = sumAmounts (es.filter (fun x => p x && q x))
        + sumAmounts (es.filter (fun x => p x && !q x)) := by
  induction es with
  | nil => simp [sumAmounts]
  | cons x es ih =>
    rw [List.filter_cons, List.filter_cons, List.filter_cons]
    by_cases hp : p x = true
    · by_cases hq : q x = true
      · rw [if_pos hp, if_pos (by simp [hp, hq]), if_neg (by simp [hp, hq]),
          sumAmounts_cons, sumAmounts_cons, ih]
        ring
      · rw [if_pos hp, if_neg (by simp [hp, hq]), if_pos (by simp [hp, hq]),
          sumAmounts_cons, sumAmounts_cons, ih]
        ring
    · rw [if_neg hp, if_neg (by simp [hp]), if_neg (by simp [hp]), ih]

/-- C6, amended: over transactions with non-negative amounts (the data
model's domain) and categories with pairwise-distinct ids, the sum of the
totals returned by `calculateCategoryTotals es cs 'expense'` is at most the
sum of all expense-kind amounts, with equality iff every expense-kind
transaction *of non-zero amount* references a listed category id (an
orphaned expense of amount `0` changes neither side); entries with total
`0` are excluded from the result. -/
theorem calculateCategoryTotals_sum_spec (es : List Expense) (cs : List Category)
    (hnd : (cs.map Category.id).Nodup)
    (hnn : ∀ x ∈ es, 0 ≤ x.amount) :
    totalsSum (calculateCategoryTotals es cs (some .expense)) ≤ allExpenseKindSum es ∧
    (totalsSum (calculateCategoryTotals es cs (some .expense)) = allExpenseKindSum es ↔
      ∀ x ∈ es, x.type = .expense → x.amount ≠ 0 → x.categoryId ∈ cs.map Category.id) ∧
    (∀ it ∈ calculateCategoryTotals es cs (some .expense), 0 < it.total) := by
  have hnneach : ∀ it ∈ cs.map (fun c =>
      let categoryExpenses := es.filter (catTypePred c (some .expense))
      ({ category := c, total := sumAmounts categoryExpenses,
         count := categoryExpenses.length } : CatTotal)), 0 ≤ it.total := by
    intro it hit
    obtain ⟨c, -, rfl⟩ := List.mem_map.mp hit
    exact sumAmounts_nonneg _ (fun x hx => hnn x (List.mem_filter.mp hx).1)
  have h1 : totalsSum (calculateCategoryTotals es cs (some .expense))
      = (cs.map (fun c => sumAmounts (es.filter (catTypePred c (some .expense))))).sum := by
    unfold calculateCategoryTotals
    rw [totalsSum_filter_pos _ hnneach]
    simp only [totalsSum, List.map_map]
    rfl
  have h3 := catSum_eq es cs .expense hnd
  have h4 := sumAmounts_filter_split es (fun x => x.type == TxKind.expense)
    (fun x => (cs.map Category.id).contains x.categoryId)
  have hall : allExpenseKindSum es
      = sumAmounts (es.filter (fun x => x.type == TxKind.expense)) := rfl
  have hrest_nn : 0 ≤ sumAmounts (es.filter (fun x =>
      (x.type == TxKind.expense) && !((cs.map Category.id).contains x.categoryId))) :=
    sumAmounts_nonneg _ (fun x hx => hnn x (List.mem_filter.mp hx).1)
  have hkey : totalsSum (calculateCategoryTotals es cs (some .expense))
      + sumAmounts (es.filter (fun x =>
          (x.type == TxKind.expense) && !((cs.map Category.id).contains x.categoryId)))
      = allExpenseKindSum es := by
    rw [h1, h3, hall, h4]
  have h5 : (∀ x ∈ es.filter (fun x =>
        (x.type == TxKind.expense) && !((cs.map Category.id).contains x.categoryId)),
        x.amount = 0)
      ↔ (∀ x ∈ es, x.type = .expense → x.amount ≠ 0 →
          x.categoryId ∈ cs.map Category.id) := by
    constructor
    · intro hz x hx ht hamt
      by_contra hmem
      have hxf : x ∈ es.filter (fun x =>
          (x.type == TxKind.expense) && !((cs.map Category.id).contains x.categoryId)) := by
        apply List.mem_filter.mpr
        refine ⟨hx, ?_⟩
        simp [ht, List.elem_iff, hmem]
      exact hamt (hz x hxf)
    · intro hc x hx
      obtain ⟨hx1, hx2⟩ := List.mem_filter.mp hx
      simp only [Bool.and_eq_true, beq_iff_eq, Bool.not_eq_true'] at hx2
      by_contra hamt
      have hmem := hc x hx1 hx2.1 hamt
      rw [← List.elem_iff] at hmem
      have hmem' : (cs.map Category.id).contains x.categoryId = true := hmem
      rw [hx2.2] at hmem'
      exact Bool.false_ne_true hmem'
  refine ⟨by linarith, ?_, ?_⟩
  · constructor
    · intro heq
      have hz : sumAmounts (es.filter (fun x =>
          (x.type == TxKind.expense) && !((cs.map Category.id).contains x.categoryId))) = 0 := by
        linarith
      exact h5.mp ((sumAmounts_eq_zero_iff _
        (fun x hx => hnn x (List.mem_filter.mp hx).1)).mp hz)
    · intro hc
      have hz : sumAmounts (es.filter (fun x =>
          (x.type == TxKind.expense) && !((cs.map Category.id).contains x.categoryId))) = 0 :=
        (sumAmounts_eq_zero_iff _
          (fun x hx => hnn x (List.mem_filter.mp hx).1)).mpr (h5.mpr hc)
      linarith
  · intro it hit
    have := (List.mem_filter.mp hit).2
    simpa using this

/-- An expense-kind transaction of amount `0` referencing no existing
category. -/
def txZero : Expense :=
  { id := "z", amount := 0, categoryId := "zzz", description := ""
    date := 0, type := .expense, createdAt := 0 }

/-- C6, counterexample: with an orphaned expense-kind transaction of amount
`0` and no categories, both sums are `0` — equality holds — yet the
transaction references no existing category id, so equality is *not*
equivalent to "every expense references an existing category" as the claim
states. -/
theorem categoryTotals_equality_iff_fails :
    (List.map Category.id ([] : List Category)).Nodup ∧
    (∀ x ∈ [txZero], 0 ≤ x.amount) ∧
    totalsSum (calculateCategoryTotals [txZero] [] (some .expense))
      = allExpenseKindSum [txZero] ∧
    ¬ (∀ x ∈ [txZero], x.type = .expense →
        x.categoryId ∈ ([] : List Category).map Category.id) := by
  refine ⟨by simp, ?_, ?_, ?_⟩
  · intro x hx
    rw [List.mem_singleton.mp hx]
    norm_num [txZero]
  · simp [calculateCategoryTotals, totalsSum, allExpenseKindSum, sumAmounts, txZero, catTypePred]
  · intro h
    have := h txZero (by simp) rfl
    simp at this

/-- The spec's sample category "Food". -/
def catFood : Category :=
  { id := "1", name := "Food", color := "#ef4444", icon := "F" }

/-- The spec's sample expense of `50` in category "Food". -/
def txFood : Expense :=
  { id := "a", amount := 50, categoryId := "1", description := "groceries"
    date := 0, type := .expense, createdAt := 0 }

/-- C6, witness: the amended sum relation applied to the spec's end-to-end
scenario of one `50` expense referencing the one category "Food". -/
theorem calculateCategoryTotals_sum_spec_witness :
    ((List.map Category.id [catFood]).Nodup ∧ (∀ x ∈ [txFood], 0 ≤ x.amount)) ∧
    (totalsSum (calculateCategoryTotals [txFood] [catFood] (some .expense))
        ≤ allExpenseKindSum [txFood] ∧
     (totalsSum (calculateCategoryTotals [txFood] [catFood] (some .expense))
          = allExpenseKindSum [txFood] ↔
        ∀ x ∈ [txFood], x.type = .expense → x.amount ≠ 0 →
          x.categoryId ∈ [catFood].map Category.id) ∧
     (∀ it ∈ calculateCategoryTotals [txFood] [catFood] (some .expense), 0 < it.total)) :=
  ⟨⟨by simp, fun x hx => by
      rw [List.mem_singleton.mp hx]
      norm_num [txFood]⟩,
   calculateCategoryTotals_sum_spec [txFood] [catFood] (by simp)
     (fun x hx => by
       rw [List.mem_singleton.mp hx]
       norm_num [txFood])⟩

end ExpenseTracker
